import Mathlib

/-!
Shallow embedding of the watchlist-kata user microservice core:
the gRPC-facing service layer (internal/service, UserService) and the
GORM/Postgres repository layer (internal/repository, PostgresRepository).

Modelling conventions:
- Go strings are Lean Strings; the Go builtin len counts UTF-8 bytes, so it
  is modelled by String.utf8ByteSize (goLen).  Lean strings are valid UTF-8
  by construction, so utf8.ValidString is constantly true in the model.
- The database is a list of rows plus the auto-increment counter and a clock.
  The unique constraints on username and email declared by the GORM tags
  (gorm_models.go) and created by AutoMigrate are enforced by the insert and
  update steps, as Postgres does.
- A context is modelled by the results of successive polls of ctx.Done():
  doneAt k is the k-th poll in program order.  Operations thread an explicit
  poll index.  ctx.Err() of a canceled context reads "context canceled".
- crypto/rand never fails in the model; the random 16 bytes drawn by
  GenerateSalt arrive base64-encoded as the salt field of an Entropy value,
  and the 128-bit salt bcrypt draws internally arrives as its rnd field.
- bcrypt (golang.org/x/crypto/bcrypt) is an external library; it is modelled
  by its contract: GenerateFromPassword rejects keys over 72 bytes and
  otherwise produces an opaque digest string determined by the internal
  random salt and the key, and CompareHashAndPassword succeeds exactly when
  the key equals the one the digest was generated from.  The digest is an
  injective encoding (decimal salt, a dollar separator, then the key); the
  model elides the plaintext-hiding of the real hash, which no claim uses.
- Timestamp formatting (time.Time.Format with RFC3339) is modelled by an
  injective rendering of the abstract clock value.
-/

namespace WatchlistUser

/-- gRPC status codes used by the service layer (google.golang.org/grpc/codes),
restricted to the error taxonomy of this service. -/
inductive Code where
  | AlreadyExists
  | Internal
  | NotFound
  | Canceled
  | InvalidArgument
  deriving Repr, DecidableEq

/-- Result of status.Error(code, msg): a gRPC status error with a code and a
human-readable message. -/
structure GrpcError where
  code : Code
  msg : String
  deriving Repr, DecidableEq

/-- Errors produced by the repository layer.  notFound is the distinguished
ErrUserNotFound; contextCanceled is ctx.Err() of a canceled context;
validation carries the message of a fmt.Errorf raised by validateUser
(the InvalidArgument class of the taxonomy); storage is any other error
surfaced by the GORM driver (here: a unique-constraint violation). -/
inductive RepoErr where
  | notFound
  | contextCanceled
  | validation (msg : String)
  | storage (msg : String)
  deriving Repr, DecidableEq

/-- Row of the user table: GormUser of gorm_models.go.  ID is the
auto-assigned primary key; CreatedAt and UpdatedAt are auto-managed
timestamps, modelled as abstract clock values. -/
structure GormUser where
  id : Nat
  username : String
  email : String
  pwdhash : String
  salt : String
  createdAt : Nat
  updatedAt : Nat
  deriving Repr, DecidableEq

/-- Domain object user.User of the protobuf package: Id is an int64,
CreatedAt and UpdatedAt are the RFC-3339 strings produced by the
repository's row-to-domain translation. -/
structure User where
  id : Int
  username : String
  email : String
  pwdhash : String
  salt : String
  createdAt : String
  updatedAt : String
  deriving Repr, DecidableEq

/-- State of the Postgres user table: the stored rows, the next value of the
primary-key sequence, and the clock used for the auto-managed timestamps. -/
structure DB where
  rows : List GormUser
  nextId : Nat
  now : Nat
  deriving Repr, DecidableEq

/-- Model of a context.Context: doneAt k is whether the k-th poll of
ctx.Done() (in program order) finds the context canceled. -/
structure Ctx where
  doneAt : Nat → Bool

/-- Randomness consumed by one service operation: salt is the base64 encoding
of the 16 random bytes GenerateSalt draws from crypto/rand, rnd is the
random salt bcrypt draws internally in GenerateFromPassword. -/
structure Entropy where
  salt : String
  rnd : Nat

/-- Request message CreateUserRequest of the user proto. -/
structure CreateUserRequest where
  username : String
  email : String
  password : String
  deriving Repr, DecidableEq

/-- Request message GetUserRequest of the user proto. -/
structure GetUserRequest where
  id : Int
  deriving Repr, DecidableEq

/-- Request message UpdateUserRequest of the user proto; an empty string
means the field is left unchanged. -/
structure UpdateUserRequest where
  id : Int
  username : String
  email : String
  password : String
  deriving Repr, DecidableEq

/-- Request message DeleteUserRequest of the user proto. -/
structure DeleteUserRequest where
  id : Int
  deriving Repr, DecidableEq

/-- Request message CheckPasswordRequest of the user proto. -/
structure CheckPasswordRequest where
  userId : Int
  password : String
  deriving Repr, DecidableEq

/-- Response message CreateUserResponse of the user proto. -/
structure CreateUserResponse where
  user : User
  deriving Repr, DecidableEq

/-- Response message GetUserResponse of the user proto. -/
structure GetUserResponse where
  user : User
  deriving Repr, DecidableEq

/-- Response message UpdateUserResponse of the user proto. -/
structure UpdateUserResponse where
  user : User
  deriving Repr, DecidableEq

/-- Response message DeleteUserResponse of the user proto. -/
structure DeleteUserResponse where
  success : Bool
  deriving Repr, DecidableEq

/-- Response message CheckPasswordResponse of the user proto. -/
structure CheckPasswordResponse where
  valid : Bool
  deriving Repr, DecidableEq

instance {ε α : Type} [DecidableEq ε] [DecidableEq α] : DecidableEq (Except ε α) :=
  fun a b =>
    match a, b with
    | Except.ok x, Except.ok y =>
      if h : x = y then Decidable.isTrue (by rw [h]) else Decidable.isFalse (by simp [h])
    | Except.error x, Except.error y =>
      if h : x = y then Decidable.isTrue (by rw [h]) else Decidable.isFalse (by simp [h])
    | Except.ok _, Except.error _ => Decidable.isFalse (by simp)
    | Except.error _, Except.ok _ => Decidable.isFalse (by simp)

/-- Go builtin len on a string: the number of bytes of its UTF-8 encoding. -/
def goLen (s : String) : Nat := s.utf8ByteSize

/-- Go utf8.ValidString: constantly true in the model, since Lean strings
are valid UTF-8 by construction. -/
def utf8ValidString (_ : String) : Bool := true

/-- Go conversion uint(x) of an int64 on a 64-bit platform: the value
modulo 2 to the 64, so a negative id wraps around. -/
def goUintOfInt64 (i : Int) : Nat := (i % (2 ^ 64 : Int)).toNat

/-- Decimal digit characters of a natural number, most significant first. -/
def natDigits (n : Nat) : List Char :=
  if h : n < 10 then [Char.ofNat (48 + n)]
  else natDigits (n / 10) ++ [Char.ofNat (48 + n % 10)]
decreasing_by exact Nat.div_lt_self (by omega) (by omega)

/-- Model of the bcrypt digest string: the internal random salt in decimal,
a dollar separator, then the hashed key.  Injective in the pair, which is
all the claims use of the real digest. -/
def bcryptDigest (rnd : Nat) (key : String) : String :=
  String.mk (natDigits rnd ++ '$' :: key.data)

/-- Model of bcrypt.GenerateFromPassword at DefaultCost: rejects keys longer
than 72 bytes (ErrPasswordTooLong), otherwise hashes the key with the
internal random salt rnd. -/
def bcryptGenerateFromPassword (rnd : Nat) (key : String) : Except String String :=
  if 72 < goLen key then Except.error "bcrypt: password length exceeds 72 bytes"
  else Except.ok (bcryptDigest rnd key)

/-- Model of bcrypt.CompareHashAndPassword: recover the key the digest was
generated from and compare; true exactly on a match (the model stays within
keys of at most 72 bytes, where the real library agrees). -/
def bcryptCompareHashAndPassword (hash key : String) : Bool :=
  ((hash.data.dropWhile (fun c => c != '$')).drop 1) == key.data

/-- Model of time.Time.Format(time.RFC3339) on the abstract clock: an
injective textual rendering of the clock value. -/
def formatRFC3339 (t : Nat) : String := toString t

/-- Lookup db.First(&u, id): first row whose primary key matches. -/
def DB.firstById (db : DB) (id : Nat) : Option GormUser :=
  db.rows.find? (fun r => r.id == id)

/-- Lookup db.Where("username = ?", username).First(&u). -/
def DB.firstByUsername (db : DB) (username : String) : Option GormUser :=
  db.rows.find? (fun r => r.username == username)

/-- Lookup db.Where("email = ?", email).First(&u). -/
def DB.firstByEmail (db : DB) (email : String) : Option GormUser :=
  db.rows.find? (fun r => r.email == email)

/-- Insert tx.Create(&row) under the unique constraints on username and
email: fails with the driver's constraint-violation error if a stored row
shares either value, otherwise assigns the next primary key and the
auto-managed timestamps and appends the row. -/
def DB.insert (db : DB) (u : GormUser) : Except RepoErr (DB × GormUser) :=
  if db.rows.any (fun r => r.username == u.username || r.email == u.email) then
    Except.error (RepoErr.storage "duplicate key value violates unique constraint")
  else
    let row : GormUser :=
      { u with id := db.nextId, createdAt := db.now, updatedAt := db.now }
    Except.ok ({ db with rows := db.rows ++ [row], nextId := db.nextId + 1 }, row)

/-- Merge step of db.Model(&old).Updates(&upd) with a struct argument: only
the non-zero (non-empty) string fields of upd overwrite old, the primary key
is the where-condition and stays, and UpdatedAt is refreshed by its
autoUpdateTime hook. -/
def mergeNonZero (old upd : GormUser) (now : Nat) : GormUser :=
  { old with
    username := if upd.username == "" then old.username else upd.username
    email := if upd.email == "" then old.email else upd.email
    pwdhash := if upd.pwdhash == "" then old.pwdhash else upd.pwdhash
    salt := if upd.salt == "" then old.salt else upd.salt
    updatedAt := now }

/-- Update statement db.Model(&old).Updates(&upd) under the unique
constraints: fails with the driver's constraint-violation error if another
row shares the merged username or email, otherwise replaces the row and
returns the merged row (GORM also writes the merged values back into the
model struct the caller then converts). -/
def DB.updateRow (db : DB) (old upd : GormUser) : DB × Except RepoErr GormUser :=
  let merged := mergeNonZero old upd db.now
  if db.rows.any (fun r =>
      r.id != merged.id && (r.username == merged.username || r.email == merged.email)) then
    (db, Except.error (RepoErr.storage "duplicate key value violates unique constraint"))
  else
    ({ db with rows := db.rows.map (fun r => if r.id == merged.id then merged else r) },
     Except.ok merged)

/-- Delete statement db.Delete(&existing): removes the row with the matching
primary key. -/
def DB.deleteById (db : DB) (id : Nat) : DB :=
  { db with rows := db.rows.filter (fun r => !(r.id == id)) }

namespace PostgresRepository

/-- validateUser of repository.go: field presence, length (in bytes, by the
Go builtin len) and UTF-8 validity checks on the incoming user, before any
write.  The nil-pointer branch of the source is unrepresentable here because
the embedding passes the struct by value. -/
def validateUser (u : User) : Except RepoErr Unit :=
  if u.username == "" || 50 < goLen u.username || !utf8ValidString u.username then
    Except.error (RepoErr.validation "invalid username: must be 1-50 characters and valid UTF-8")
  else if u.email == "" || 254 < goLen u.email || !utf8ValidString u.email then
    Except.error (RepoErr.validation "invalid email: must be 1-254 characters and valid UTF-8")
  else if u.pwdhash == "" || 1000 < goLen u.pwdhash then
    Except.error (RepoErr.validation "invalid password hash: must be 1-1000 characters")
  else if u.salt == "" || 255 < goLen u.salt then
    Except.error (RepoErr.validation "invalid salt: must be 1-255 characters")
  else
    Except.ok ()

/-- CreateUser of repository.go: poll the context (poll k), validate, begin
a transaction, poll again (poll k+1, rollback on cancellation), insert, poll
again (poll k+2, rollback on cancellation), commit, and return the row
re-read through convertToProtoUser.  A rollback leaves the original table
state; Begin and Commit themselves do not fail in the model (connection
failures are not modelled). -/
def CreateUser (ctx : Ctx) (k : Nat) (db : DB) (u : User) : DB × Except RepoErr User :=
  if ctx.doneAt k then (db, Except.error RepoErr.contextCanceled)
  else
    match validateUser u with
    | Except.error e => (db, Except.error e)
    | Except.ok _ =>
      let gormUser : GormUser :=
        { id := 0, username := u.username, email := u.email,
          pwdhash := u.pwdhash, salt := u.salt, createdAt := 0, updatedAt := 0 }
      if ctx.doneAt (k + 1) then (db, Except.error RepoErr.contextCanceled)
      else
        match db.insert gormUser with
        | Except.error e => (db, Except.error e)
        | Except.ok (db₂, row) =>
          if ctx.doneAt (k + 2) then (db, Except.error RepoErr.contextCanceled)
          else (db₂, Except.ok (convertToProtoUser row))
where
  /-- convertToProtoUser of repository.go: copies the scalar columns 1:1 and
  formats the timestamps as RFC-3339 strings. -/
  convertToProtoUser (g : GormUser) : User :=
    { id := Int.ofNat g.id, username := g.username, email := g.email,
      pwdhash := g.pwdhash, salt := g.salt,
      createdAt := formatRFC3339 g.createdAt, updatedAt := formatRFC3339 g.updatedAt }

/-- GetUserByID of repository.go: poll the context, point lookup by primary
key, mapping an absent row to the distinguished ErrUserNotFound. -/
def GetUserByID (ctx : Ctx) (k : Nat) (db : DB) (id : Nat) : Except RepoErr User :=
  if ctx.doneAt k then Except.error RepoErr.contextCanceled
  else
    match db.firstById id with
    | none => Except.error RepoErr.notFound
    | some g => Except.ok (CreateUser.convertToProtoUser g)

/-- GetUserByUsername of repository.go. -/
def GetUserByUsername (ctx : Ctx) (k : Nat) (db : DB) (username : String) : Except RepoErr User :=
  if ctx.doneAt k then Except.error RepoErr.contextCanceled
  else
    match db.firstByUsername username with
    | none => Except.error RepoErr.notFound
    | some g => Except.ok (CreateUser.convertToProtoUser g)

/-- GetUserByEmail of repository.go. -/
def GetUserByEmail (ctx : Ctx) (k : Nat) (db : DB) (email : String) : Except RepoErr User :=
  if ctx.doneAt k then Except.error RepoErr.contextCanceled
  else
    match db.firstByEmail email with
    | none => Except.error RepoErr.notFound
    | some g => Except.ok (CreateUser.convertToProtoUser g)

/-- UpdateUser of repository.go: poll the context, translate the proto user
to a row shape, confirm the target id exists (ErrUserNotFound if not), then
run the partial-field Updates statement and return the merged row through
convertToProtoUser. -/
def UpdateUser (ctx : Ctx) (k : Nat) (db : DB) (u : User) : DB × Except RepoErr User :=
  if ctx.doneAt k then (db, Except.error RepoErr.contextCanceled)
  else
    let gormUser : GormUser :=
      { id := goUintOfInt64 u.id, username := u.username, email := u.email,
        pwdhash := u.pwdhash, salt := u.salt, createdAt := 0, updatedAt := 0 }
    match db.firstById gormUser.id with
    | none => (db, Except.error RepoErr.notFound)
    | some existing =>
      match db.updateRow existing gormUser with
      | (db₂, Except.error e) => (db₂, Except.error e)
      | (db₂, Except.ok merged) => (db₂, Except.ok (CreateUser.convertToProtoUser merged))

/-- DeleteUser of repository.go: poll the context, confirm the id exists
(ErrUserNotFound if not), then delete the row. -/
def DeleteUser (ctx : Ctx) (k : Nat) (db : DB) (id : Nat) : DB × Except RepoErr Unit :=
  if ctx.doneAt k then (db, Except.error RepoErr.contextCanceled)
  else
    match db.firstById id with
    | none => (db, Except.error RepoErr.notFound)
    | some existing => (db.deleteById existing.id, Except.ok ())

end PostgresRepository

namespace UserService

/-- GenerateSalt of service.go: 16 random bytes from crypto/rand,
base64-encoded; the model receives the encoded value from the entropy and
never fails. -/
def GenerateSalt (e : Entropy) : String := e.salt

/-- HashPassword of service.go: bcrypt over the concatenation of the
password and the salt. -/
def HashPassword (password salt : String) (rnd : Nat) : Except String String :=
  bcryptGenerateFromPassword rnd (password ++ salt)

/-- Create of service.go: fail fast on a canceled context (poll 0), reject a
taken username then a taken email (AlreadyExists; a lookup failure other than
ErrUserNotFound is Internal), generate a salt, hash the password, and persist
through the repository (polls 1, 2 for the lookups, 3 to 5 inside CreateUser). -/
def Create (ctx : Ctx) (db : DB) (e : Entropy) (req : CreateUserRequest) :
    DB × Except GrpcError CreateUserResponse :=
  if ctx.doneAt 0 then (db, Except.error ⟨Code.Canceled, "context canceled"⟩)
  else
    match PostgresRepository.GetUserByUsername ctx 1 db req.username with
    | Except.ok _ => (db, Except.error ⟨Code.AlreadyExists, "username already exists"⟩)
    | Except.error e₁ =>
      if e₁ != RepoErr.notFound then
        (db, Except.error ⟨Code.Internal, "failed to check username uniqueness"⟩)
      else
        match PostgresRepository.GetUserByEmail ctx 2 db req.email with
        | Except.ok _ => (db, Except.error ⟨Code.AlreadyExists, "email already exists"⟩)
        | Except.error e₂ =>
          if e₂ != RepoErr.notFound then
            (db, Except.error ⟨Code.Internal, "failed to check email uniqueness"⟩)
          else
            let salt := GenerateSalt e
            match HashPassword req.password salt e.rnd with
            | Except.error _ => (db, Except.error ⟨Code.Internal, "failed to hash password"⟩)
            | Except.ok hashedPassword =>
              let newUser : User :=
                { id := 0, username := req.username, email := req.email,
                  pwdhash := hashedPassword, salt := salt, createdAt := "", updatedAt := "" }
              match PostgresRepository.CreateUser ctx 3 db newUser with
              | (db₂, Except.error _) =>
                (db₂, Except.error ⟨Code.Internal, "failed to create user"⟩)
              | (db₂, Except.ok createdUser) =>
                (db₂, Except.ok ⟨createdUser⟩)

/-- GetByID of service.go: fail fast on a canceled context (poll 0), look the
user up by the id converted to uint (poll 1), mapping ErrUserNotFound to
NotFound and any other failure to Internal. -/
def GetByID (ctx : Ctx) (db : DB) (req : GetUserRequest) :
    DB × Except GrpcError GetUserResponse :=
  if ctx.doneAt 0 then (db, Except.error ⟨Code.Canceled, "context canceled"⟩)
  else
    match PostgresRepository.GetUserByID ctx 1 db (goUintOfInt64 req.id) with
    | Except.error err =>
      if err == RepoErr.notFound then (db, Except.error ⟨Code.NotFound, "user not found"⟩)
      else (db, Except.error ⟨Code.Internal, "failed to get user"⟩)
    | Except.ok user => (db, Except.ok ⟨user⟩)

/-- Update of service.go: fail fast on a canceled context (poll 0), fetch the
existing user (poll 1; ErrUserNotFound maps to NotFound), copy its fields,
overwrite username and email when the request carries non-empty values, on a
non-empty password generate a fresh salt and rehash, then run the repository
update (poll 2); any repository-update failure maps to Internal. -/
def Update (ctx : Ctx) (db : DB) (e : Entropy) (req : UpdateUserRequest) :
    DB × Except GrpcError UpdateUserResponse :=
  if ctx.doneAt 0 then (db, Except.error ⟨Code.Canceled, "context canceled"⟩)
  else
    match PostgresRepository.GetUserByID ctx 1 db (goUintOfInt64 req.id) with
    | Except.error err =>
      if err == RepoErr.notFound then (db, Except.error ⟨Code.NotFound, "user not found"⟩)
      else (db, Except.error ⟨Code.Internal, "failed to get user"⟩)
    | Except.ok existingUser =>
      let base : User :=
        { id := req.id, username := existingUser.username, email := existingUser.email,
          pwdhash := existingUser.pwdhash, salt := existingUser.salt,
          createdAt := existingUser.createdAt, updatedAt := existingUser.updatedAt }
      let withName : User := if req.username != "" then { base with username := req.username } else base
      let withEmail : User := if req.email != "" then { withName with email := req.email } else withName
      if req.password != "" then
        match HashPassword req.password (GenerateSalt e) e.rnd with
        | Except.error _ => (db, Except.error ⟨Code.Internal, "failed to update password"⟩)
        | Except.ok hashedPassword =>
          let userToUpdate : User :=
            { withEmail with pwdhash := hashedPassword, salt := GenerateSalt e }
          match PostgresRepository.UpdateUser ctx 2 db userToUpdate with
          | (db₂, Except.error _) => (db₂, Except.error ⟨Code.Internal, "failed to update user"⟩)
          | (db₂, Except.ok updatedUser) => (db₂, Except.ok ⟨updatedUser⟩)
      else
        match PostgresRepository.UpdateUser ctx 2 db withEmail with
        | (db₂, Except.error _) => (db₂, Except.error ⟨Code.Internal, "failed to update user"⟩)
        | (db₂, Except.ok updatedUser) => (db₂, Except.ok ⟨updatedUser⟩)

/-- Delete of service.go: fail fast on a canceled context (poll 0), delete by
the id converted to uint (poll 1), mapping ErrUserNotFound to NotFound and
any other failure to Internal; success returns a true success flag. -/
def Delete (ctx : Ctx) (db : DB) (req : DeleteUserRequest) :
    DB × Except GrpcError DeleteUserResponse :=
  if ctx.doneAt 0 then (db, Except.error ⟨Code.Canceled, "context canceled"⟩)
  else
    match PostgresRepository.DeleteUser ctx 1 db (goUintOfInt64 req.id) with
    | (db₂, Except.error err) =>
      if err == RepoErr.notFound then (db₂, Except.error ⟨Code.NotFound, "user not found"⟩)
      else (db₂, Except.error ⟨Code.Internal, "failed to delete user"⟩)
    | (db₂, Except.ok _) => (db₂, Except.ok ⟨true⟩)

/-- CheckPass of service.go: fail fast on a canceled context (poll 0), fetch
the user (poll 1; ErrUserNotFound maps to NotFound, other failures to
Internal), then compare the stored hash against the supplied password
concatenated with the stored salt; a mismatch is the non-error response
valid=false. -/
def CheckPass (ctx : Ctx) (db : DB) (req : CheckPasswordRequest) :
    DB × Except GrpcError CheckPasswordResponse :=
  if ctx.doneAt 0 then (db, Except.error ⟨Code.Canceled, "context canceled"⟩)
  else
    match PostgresRepository.GetUserByID ctx 1 db (goUintOfInt64 req.userId) with
    | Except.error err =>
      if err == RepoErr.notFound then (db, Except.error ⟨Code.NotFound, "user not found"⟩)
      else (db, Except.error ⟨Code.Internal, "failed to check password"⟩)
    | Except.ok user =>
      if bcryptCompareHashAndPassword user.pwdhash (req.password ++ user.salt) then
        (db, Except.ok ⟨true⟩)
      else
        (db, Except.ok ⟨false⟩)

end UserService

/-! Helper lemmas about the bcrypt model. -/

theorem natDigits_ne_nil (n : Nat) : natDigits n ≠ [] := by
  unfold natDigits
  split <;> simp

theorem digitChar_ne_dollar (m : Nat) (hm : m < 10) : (Char.ofNat (48 + m) != '$') = true := by
  interval_cases m <;> decide

theorem mem_natDigits_ne_dollar (n : Nat) : ∀ c ∈ natDigits n, (c != '$') = true := by
  induction n using natDigits.induct with
  | case1 n h =>
    unfold natDigits
    simp only [dif_pos h, List.mem_singleton]
    rintro c rfl
    exact digitChar_ne_dollar n h
  | case2 n h ih =>
    unfold natDigits
    simp only [dif_neg h, List.mem_append, List.mem_singleton]
    rintro c (hc | rfl)
    · exact ih c hc
    · exact digitChar_ne_dollar (n % 10) (Nat.mod_lt _ (by omega))

theorem dropWhile_append_of_forall {p : Char → Bool} (l₁ l₂ : List Char)
    (h : ∀ c ∈ l₁, p c = true) : (l₁ ++ l₂).dropWhile p = l₂.dropWhile p := by
  induction l₁ with
  | nil => rfl
  | cons a l ih =>
    simp only [List.cons_append, List.dropWhile_cons, h a (by simp)]
    exact ih (fun c hc => h c (by simp [hc]))

/-- Verification recovers exactly the key a digest was generated from. -/
theorem bcryptCompare_digest (rnd : Nat) (key key' : String) :
    bcryptCompareHashAndPassword (bcryptDigest rnd key) key' = (key.data == key'.data) := by
  unfold bcryptCompareHashAndPassword bcryptDigest
  rw [show (String.mk (natDigits rnd ++ '$' :: key.data)).data
        = natDigits rnd ++ '$' :: key.data from rfl]
  rw [dropWhile_append_of_forall _ _ (mem_natDigits_ne_dollar rnd)]
  simp [List.dropWhile_cons]

theorem bcryptCompare_digest_self (rnd : Nat) (key : String) :
    bcryptCompareHashAndPassword (bcryptDigest rnd key) key = true := by
  rw [bcryptCompare_digest]; simp

theorem bcryptCompare_digest_ne (rnd : Nat) (key key' : String) (h : key ≠ key') :
    bcryptCompareHashAndPassword (bcryptDigest rnd key) key' = false := by
  rw [bcryptCompare_digest]
  simp only [beq_eq_false_iff_ne, ne_eq]
  intro hd
  exact h (String.ext hd)

theorem append_salt_ne (p q s : String) (h : p ≠ q) : p ++ s ≠ q ++ s := by
  intro he
  apply h
  apply String.ext
  have hd := congrArg String.data he
  rw [String.data_append, String.data_append] at hd
  exact List.append_cancel_right hd

theorem bcryptDigest_ne_empty (rnd : Nat) (key : String) :
    bcryptDigest rnd key ≠ "" := by
  intro h
  have hd := congrArg String.data h
  rw [show (bcryptDigest rnd key).data = natDigits rnd ++ '$' :: key.data from rfl] at hd
  simp at hd

/-- Replacing the row with a given primary key commutes with the primary-key
lookup, since the replacement keeps the key. -/
theorem find?_id_map (l : List GormUser) (n : Nat) (m : GormUser) (hm : m.id = n) :
    (l.map (fun r => if r.id == n then m else r)).find? (fun r => r.id == n)
      = (l.find? (fun r => r.id == n)).map (fun r => if r.id == n then m else r) := by
  induction l with
  | nil => rfl
  | cons a t ih =>
    simp only [List.map_cons]
    by_cases h : a.id = n
    · rw [if_pos (by simpa using h)]
      rw [List.find?_cons_of_pos _ (by simpa using hm)]
      rw [List.find?_cons_of_pos _ (by simpa using h)]
      simp [h]
    · rw [if_neg (by simpa using h)]
      rw [List.find?_cons_of_neg _ (by simpa using h)]
      rw [List.find?_cons_of_neg _ (by simpa using h)]
      exact ih

/-- Behavior of the repository update when the incoming user keeps the
credentials of the found row, carries non-empty hash and salt, and no other
row shares those credentials: the row is replaced by the merge and returned
through the row-to-domain translation. -/
theorem repo_update_merge (ctx : Ctx) (k : Nat) (db : DB) (u : User) (g : GormUser)
    (hck : ctx.doneAt k = false)
    (hfind : db.firstById (goUintOfInt64 u.id) = some g)
    (hu : u.username = g.username) (he : u.email = g.email)
    (hh : u.pwdhash ≠ "") (hs : u.salt ≠ "")
    (huniq : ∀ r ∈ db.rows, r.id ≠ g.id → r.username ≠ g.username ∧ r.email ≠ g.email) :
    PostgresRepository.UpdateUser ctx k db u =
      ({ db with rows := db.rows.map (fun r =>
           if r.id == g.id then ⟨g.id, g.username, g.email, u.pwdhash, u.salt, g.createdAt, db.now⟩
           else r) },
       Except.ok (PostgresRepository.CreateUser.convertToProtoUser
         ⟨g.id, g.username, g.email, u.pwdhash, u.salt, g.createdAt, db.now⟩)) := by
  have hgid : g.id = goUintOfInt64 u.id := by
    have := List.find?_some hfind
    simpa using this
  unfold PostgresRepository.UpdateUser
  rw [hck]
  simp only [Bool.false_eq_true, if_false]
  rw [show (goUintOfInt64 u.id) = g.id from hgid.symm] at hfind ⊢
  rw [hfind]
  have hpwb : (u.pwdhash == "") = false := beq_eq_false_iff_ne.mpr hh
  have hsab : (u.salt == "") = false := beq_eq_false_iff_ne.mpr hs
  simp only [DB.updateRow, mergeNonZero, hu, he, hpwb, hsab, Bool.false_eq_true, if_false,
    ite_self]
  have hguard : (db.rows.any fun r =>
      r.id != g.id && (r.username == g.username || r.email == g.email)) = false := by
    rw [List.any_eq_false]
    intro r hr
    by_cases hid : r.id = g.id
    · simp [hid]
    · have h2 := huniq r hr hid
      simp [hid, h2.1, h2.2]
  rw [hguard]
  simp only [Bool.false_eq_true, if_false]

/-! Concrete values used by the witness theorems. -/

/-- Context that is already canceled at every poll. -/
def ctxCanceledAll : Ctx := ⟨fun _ => true⟩

/-- Context that is never canceled. -/
def ctxLive : Ctx := ⟨fun _ => false⟩

/-- Empty database with the primary-key sequence at 1. -/
def db0 : DB := ⟨[], 1, 10⟩

/-- Sample entropy: a 24-character base64 salt and a bcrypt-internal salt. -/
def ent0 : Entropy := ⟨"c2FsdHNhbHRzYWx0c2FsdA==", 7⟩

/-- Database holding the single account alice. -/
def db1 : DB := ⟨[⟨1, "alice", "a@x.com", "h1", "s1", 10, 10⟩], 2, 20⟩

/-! Claim theorems. -/

/-- C5: every service operation invoked with a context already canceled on
entry returns the Canceled error at once, before any storage access, and the
storage state is unchanged. -/
theorem service_canceled_context_fails_fast (ctx : Ctx) (db : DB) (e : Entropy)
    (req₁ : CreateUserRequest) (req₂ : GetUserRequest) (req₃ : UpdateUserRequest)
    (req₄ : DeleteUserRequest) (req₅ : CheckPasswordRequest)
    (h : ctx.doneAt 0 = true) :
    UserService.Create ctx db e req₁ = (db, Except.error ⟨Code.Canceled, "context canceled"⟩) ∧
    UserService.GetByID ctx db req₂ = (db, Except.error ⟨Code.Canceled, "context canceled"⟩) ∧
    UserService.Update ctx db e req₃ = (db, Except.error ⟨Code.Canceled, "context canceled"⟩) ∧
    UserService.Delete ctx db req₄ = (db, Except.error ⟨Code.Canceled, "context canceled"⟩) ∧
    UserService.CheckPass ctx db req₅ = (db, Except.error ⟨Code.Canceled, "context canceled"⟩) := by
  refine ⟨?_, ?_, ?_, ?_, ?_⟩ <;>
    simp [UserService.Create, UserService.GetByID, UserService.Update,
      UserService.Delete, UserService.CheckPass, h]

/-- C5 witness at a concrete canceled context, request and database. -/
theorem service_canceled_context_fails_fast_witness :
    ctxCanceledAll.doneAt 0 = true ∧
    UserService.Create ctxCanceledAll db0 ent0 ⟨"alice", "a@x.com", "pw1"⟩
      = (db0, Except.error ⟨Code.Canceled, "context canceled"⟩) ∧
    UserService.GetByID ctxCanceledAll db0 ⟨1⟩
      = (db0, Except.error ⟨Code.Canceled, "context canceled"⟩) ∧
    UserService.Update ctxCanceledAll db0 ent0 ⟨1, "", "", "pw2"⟩
      = (db0, Except.error ⟨Code.Canceled, "context canceled"⟩) ∧
    UserService.Delete ctxCanceledAll db0 ⟨1⟩
      = (db0, Except.error ⟨Code.Canceled, "context canceled"⟩) ∧
    UserService.CheckPass ctxCanceledAll db0 ⟨1, "pw1"⟩
      = (db0, Except.error ⟨Code.Canceled, "context canceled"⟩) := by
  have h := service_canceled_context_fails_fast ctxCanceledAll db0 ent0
    ⟨"alice", "a@x.com", "pw1"⟩ ⟨1⟩ ⟨1, "", "", "pw2"⟩ ⟨1⟩ ⟨1, "pw1"⟩ rfl
  exact ⟨rfl, h.1, h.2.1, h.2.2.1, h.2.2.2.1, h.2.2.2.2⟩

/-- Shared fact: when the converted id has no matching row, each id-addressed
service operation answers NotFound and leaves the database unchanged. -/
theorem absent_id_not_found_aux (ctx : Ctx) (db : DB) (e : Entropy) (id : Int) (pw : String)
    (hc : ∀ k, ctx.doneAt k = false)
    (habs : db.firstById (goUintOfInt64 id) = none) :
    UserService.GetByID ctx db ⟨id⟩ = (db, Except.error ⟨Code.NotFound, "user not found"⟩) ∧
    (∀ req : UpdateUserRequest, req.id = id →
      UserService.Update ctx db e req = (db, Except.error ⟨Code.NotFound, "user not found"⟩)) ∧
    UserService.Delete ctx db ⟨id⟩ = (db, Except.error ⟨Code.NotFound, "user not found"⟩) ∧
    UserService.CheckPass ctx db ⟨id, pw⟩ = (db, Except.error ⟨Code.NotFound, "user not found"⟩) := by
  refine ⟨?_, ?_, ?_, ?_⟩
  · simp [UserService.GetByID, PostgresRepository.GetUserByID, hc, habs]
  · intro req hid
    simp [UserService.Update, PostgresRepository.GetUserByID, hc, hid, habs]
  · simp [UserService.Delete, PostgresRepository.DeleteUser, hc, habs]
  · simp [UserService.CheckPass, PostgresRepository.GetUserByID, hc, habs]

/-- C1: for every id with no matching row in storage, GetByID, Update,
Delete and CheckPassword each fail with the NotFound error (and hence never
with Internal), leaving storage unchanged. -/
theorem service_missing_id_not_found (ctx : Ctx) (db : DB) (e : Entropy) (id : Int) (pw : String)
    (hc : ∀ k, ctx.doneAt k = false)
    (habs : db.firstById (goUintOfInt64 id) = none) :
    UserService.GetByID ctx db ⟨id⟩ = (db, Except.error ⟨Code.NotFound, "user not found"⟩) ∧
    (∀ req : UpdateUserRequest, req.id = id →
      UserService.Update ctx db e req = (db, Except.error ⟨Code.NotFound, "user not found"⟩)) ∧
    UserService.Delete ctx db ⟨id⟩ = (db, Except.error ⟨Code.NotFound, "user not found"⟩) ∧
    UserService.CheckPass ctx db ⟨id, pw⟩ = (db, Except.error ⟨Code.NotFound, "user not found"⟩) :=
  absent_id_not_found_aux ctx db e id pw hc habs

/-- C1 witness: id 42 is absent from the empty database. -/
theorem service_missing_id_not_found_witness :
    db0.firstById (goUintOfInt64 42) = none ∧
    UserService.GetByID ctxLive db0 ⟨42⟩
      = (db0, Except.error ⟨Code.NotFound, "user not found"⟩) ∧
    UserService.Update ctxLive db0 ent0 ⟨42, "", "", "pw2"⟩
      = (db0, Except.error ⟨Code.NotFound, "user not found"⟩) ∧
    UserService.Delete ctxLive db0 ⟨42⟩
      = (db0, Except.error ⟨Code.NotFound, "user not found"⟩) ∧
    UserService.CheckPass ctxLive db0 ⟨42, "pw1"⟩
      = (db0, Except.error ⟨Code.NotFound, "user not found"⟩) := by
  have h := service_missing_id_not_found ctxLive db0 ent0 42 "pw1"
    (fun _ => rfl) (by decide)
  exact ⟨by decide, h.1, h.2.1 ⟨42, "", "", "pw2"⟩ rfl, h.2.2.1, h.2.2.2⟩

/-- C2: a Create request whose username or email coincides with a stored
account fails with AlreadyExists, and the stored rows are unchanged. -/
theorem service_create_duplicate_already_exists (ctx : Ctx) (db : DB) (e : Entropy)
    (req : CreateUserRequest) (A : GormUser)
    (hc : ∀ k, ctx.doneAt k = false)
    (hA : A ∈ db.rows) (hdup : A.username = req.username ∨ A.email = req.email) :
    (UserService.Create ctx db e req).1 = db ∧
    ∃ msg, (UserService.Create ctx db e req).2 = Except.error ⟨Code.AlreadyExists, msg⟩ := by
  unfold UserService.Create
  rw [hc 0]
  simp only [Bool.false_eq_true, if_false]
  unfold PostgresRepository.GetUserByUsername
  rw [hc 1]
  simp only [Bool.false_eq_true, if_false]
  cases hfu : db.firstByUsername req.username with
  | some g => simp
  | none =>
    have hne : A.email = req.email := by
      rcases hdup with hdu | hde
      · exfalso
        have := List.find?_eq_none.mp hfu A hA
        simp [hdu] at this
      · exact hde
    unfold PostgresRepository.GetUserByEmail
    rw [hc 2]
    simp only [Bool.false_eq_true, if_false]
    cases hfe : db.firstByEmail req.email with
    | some g => simp
    | none =>
      exfalso
      have := List.find?_eq_none.mp hfe A hA
      simp [hne] at this

/-- C2 witness: creating a second alice, and a second holder of the stored
email, both fail with AlreadyExists on an unchanged database. -/
theorem service_create_duplicate_already_exists_witness :
    (⟨1, "alice", "a@x.com", "h1", "s1", 10, 10⟩ : GormUser) ∈ db1.rows ∧
    (UserService.Create ctxLive db1 ent0 ⟨"alice", "b@x.com", "pw2"⟩).1 = db1 ∧
    (∃ msg, (UserService.Create ctxLive db1 ent0 ⟨"alice", "b@x.com", "pw2"⟩).2
      = Except.error ⟨Code.AlreadyExists, msg⟩) := by
  have h := service_create_duplicate_already_exists ctxLive db1 ent0
    ⟨"alice", "b@x.com", "pw2"⟩ ⟨1, "alice", "a@x.com", "h1", "s1", 10, 10⟩
    (fun _ => rfl) (by decide) (Or.inl rfl)
  exact ⟨by decide, h.1, h.2⟩

/-- C4: CheckPassword inverts the hashing of Create and Update: when the
stored pair of hash and salt was produced by HashPassword from plaintext P,
CheckPassword with P answers valid true, and with any other password answers
valid false as a non-error response, the storage unchanged either way. -/
theorem service_checkpass_inverts_hashing (ctx : Ctx) (db : DB) (uid : Int)
    (P : String) (rnd : Nat) (g : GormUser)
    (hc : ∀ k, ctx.doneAt k = false)
    (hfind : db.firstById (goUintOfInt64 uid) = some g)
    (hhash : UserService.HashPassword P g.salt rnd = Except.ok g.pwdhash) :
    UserService.CheckPass ctx db ⟨uid, P⟩ = (db, Except.ok ⟨true⟩) ∧
    ∀ Q, Q ≠ P → UserService.CheckPass ctx db ⟨uid, Q⟩ = (db, Except.ok ⟨false⟩) := by
  have hpwd : g.pwdhash = bcryptDigest rnd (P ++ g.salt) := by
    unfold UserService.HashPassword bcryptGenerateFromPassword at hhash
    split at hhash
    · exact absurd hhash (by simp)
    · exact (Except.ok.injEq _ _).mp hhash.symm ▸ rfl
  constructor
  · simp [UserService.CheckPass, PostgresRepository.GetUserByID, hc, hfind,
      PostgresRepository.CreateUser.convertToProtoUser, hpwd, bcryptCompare_digest_self]
  · intro Q hQ
    have hneq : P ++ g.salt ≠ Q ++ g.salt := append_salt_ne P Q g.salt (fun h => hQ h.symm)
    simp [UserService.CheckPass, PostgresRepository.GetUserByID, hc, hfind,
      PostgresRepository.CreateUser.convertToProtoUser, hpwd,
      bcryptCompare_digest_ne rnd _ _ hneq]

/-- C3: an Update carrying only a new password keeps the stored username and
email and replaces the hash and salt by fresh values that verify the new
password and fail to verify any other (in particular the old) password. -/
theorem service_update_password_only (ctx : Ctx) (db : DB) (e : Entropy)
    (req : UpdateUserRequest) (g : GormUser)
    (hc : ∀ k, ctx.doneAt k = false)
    (hun : req.username = "") (hem : req.email = "") (hpw : req.password ≠ "")
    (hsz : goLen (req.password ++ e.salt) ≤ 72)
    (hsalt : e.salt ≠ "")
    (hfind : db.firstById (goUintOfInt64 req.id) = some g)
    (huniq : ∀ r ∈ db.rows, r.id ≠ g.id → r.username ≠ g.username ∧ r.email ≠ g.email) :
    ∃ u : User,
      (UserService.Update ctx db e req).2 = Except.ok ⟨u⟩ ∧
      u.username = g.username ∧ u.email = g.email ∧ u.salt = e.salt ∧
      bcryptCompareHashAndPassword u.pwdhash (req.password ++ u.salt) = true ∧
      (∀ old, old ≠ req.password →
        bcryptCompareHashAndPassword u.pwdhash (old ++ u.salt) = false) ∧
      ∃ row : GormUser,
        (UserService.Update ctx db e req).1.firstById g.id = some row ∧
        row.username = g.username ∧ row.email = g.email ∧
        row.pwdhash = u.pwdhash ∧ row.salt = u.salt := by
  have hgid : g.id = goUintOfInt64 req.id := by
    have := List.find?_some hfind
    simpa using this
  have hrepoGet : PostgresRepository.GetUserByID ctx 1 db (goUintOfInt64 req.id)
      = Except.ok (PostgresRepository.CreateUser.convertToProtoUser g) := by
    simp [PostgresRepository.GetUserByID, hc, hfind]
  have hhash : UserService.HashPassword req.password (UserService.GenerateSalt e) e.rnd
      = Except.ok (bcryptDigest e.rnd (req.password ++ e.salt)) := by
    unfold UserService.HashPassword bcryptGenerateFromPassword UserService.GenerateSalt
    rw [if_neg (by omega)]
  have hstep := repo_update_merge ctx 2 db
    ⟨req.id, g.username, g.email, bcryptDigest e.rnd (req.password ++ e.salt), e.salt,
      formatRFC3339 g.createdAt, formatRFC3339 g.updatedAt⟩ g (hc 2) hfind rfl rfl
    (bcryptDigest_ne_empty _ _) hsalt huniq
  have hred : UserService.Update ctx db e req
      = ({ db with rows := db.rows.map (fun r =>
             if r.id == g.id then
               ⟨g.id, g.username, g.email, bcryptDigest e.rnd (req.password ++ e.salt), e.salt,
                 g.createdAt, db.now⟩
             else r) },
         Except.ok ⟨PostgresRepository.CreateUser.convertToProtoUser
           ⟨g.id, g.username, g.email, bcryptDigest e.rnd (req.password ++ e.salt), e.salt,
             g.createdAt, db.now⟩⟩) := by
    unfold UserService.Update
    rw [hc 0]
    simp only [Bool.false_eq_true, if_false, hrepoGet]
    simp only [hun, hem, bne_self_eq_false, Bool.false_eq_true, if_false]
    rw [show ((req.password != "") = true) from bne_iff_ne.mpr hpw]
    simp only [if_true]
    rw [hhash]
    simp only [UserService.GenerateSalt, PostgresRepository.CreateUser.convertToProtoUser]
    rw [hstep]
    rfl
  refine ⟨PostgresRepository.CreateUser.convertToProtoUser
    ⟨g.id, g.username, g.email, bcryptDigest e.rnd (req.password ++ e.salt), e.salt,
      g.createdAt, db.now⟩, by rw [hred], rfl, rfl, rfl,
    bcryptCompare_digest_self e.rnd (req.password ++ e.salt), ?_, ?_⟩
  · intro old hold
    exact bcryptCompare_digest_ne e.rnd _ _
      (append_salt_ne req.password old e.salt (fun h => hold h.symm))
  · refine ⟨⟨g.id, g.username, g.email, bcryptDigest e.rnd (req.password ++ e.salt), e.salt,
      g.createdAt, db.now⟩, ?_, rfl, rfl, rfl, rfl⟩
    rw [hred]
    show (db.rows.map (fun r =>
        if r.id == g.id then
          ⟨g.id, g.username, g.email, bcryptDigest e.rnd (req.password ++ e.salt), e.salt,
            g.createdAt, db.now⟩
        else r)).find? (fun r => r.id == g.id) = _
    rw [find?_id_map db.rows g.id
      ⟨g.id, g.username, g.email, bcryptDigest e.rnd (req.password ++ e.salt), e.salt,
        g.createdAt, db.now⟩ rfl]
    rw [show db.rows.find? (fun r => r.id == g.id) = some g from hgid ▸ hfind]
    simp

/-- Salt string shared by the witness databases. -/
def salt1 : String := "c2FsdHNhbHRzYWx0c2FsdA=="

/-- Stored row whose credentials were produced by hashing pw1 with salt1. -/
def aliceRow : GormUser :=
  ⟨1, "alice", "a@x.com", bcryptDigest 7 ("pw1" ++ salt1), salt1, 10, 10⟩

/-- Database holding aliceRow. -/
def db2 : DB := ⟨[aliceRow], 2, 20⟩

/-- C4 witness: the right password verifies, an extended one does not. -/
theorem service_checkpass_inverts_hashing_witness :
    db2.firstById (goUintOfInt64 1) = some aliceRow ∧
    UserService.HashPassword "pw1" aliceRow.salt 7 = Except.ok aliceRow.pwdhash ∧
    UserService.CheckPass ctxLive db2 ⟨1, "pw1"⟩ = (db2, Except.ok ⟨true⟩) ∧
    UserService.CheckPass ctxLive db2 ⟨1, "pw1x"⟩ = (db2, Except.ok ⟨false⟩) := by
  have hfind : db2.firstById (goUintOfInt64 1) = some aliceRow := rfl
  have hhash : UserService.HashPassword "pw1" aliceRow.salt 7 = Except.ok aliceRow.pwdhash := by
    unfold UserService.HashPassword bcryptGenerateFromPassword aliceRow salt1
    rw [if_neg (by decide)]
  have h := service_checkpass_inverts_hashing ctxLive db2 1 "pw1" 7 aliceRow
    (fun _ => rfl) hfind hhash
  exact ⟨hfind, hhash, h.1, h.2 "pw1x" (by decide)⟩

/-- C3 witness: updating alice with only a new password pw3 keeps username
and email, and the fresh hash verifies pw3 and rejects the old pw1. -/
theorem service_update_password_only_witness :
    db1.firstById (goUintOfInt64 1) = some ⟨1, "alice", "a@x.com", "h1", "s1", 10, 10⟩ ∧
    ∃ u : User,
      (UserService.Update ctxLive db1 ent0 ⟨1, "", "", "pw3"⟩).2 = Except.ok ⟨u⟩ ∧
      u.username = "alice" ∧ u.email = "a@x.com" ∧ u.salt = ent0.salt ∧
      bcryptCompareHashAndPassword u.pwdhash ("pw3" ++ u.salt) = true ∧
      bcryptCompareHashAndPassword u.pwdhash ("pw1" ++ u.salt) = false := by
  have h := service_update_password_only ctxLive db1 ent0 ⟨1, "", "", "pw3"⟩
    ⟨1, "alice", "a@x.com", "h1", "s1", 10, 10⟩ (fun _ => rfl) rfl rfl (by decide)
    (by decide) (by decide) (by decide) (by decide)
  obtain ⟨u, h1, h2, h3, h4, h5, h6, _⟩ := h
  exact ⟨by decide, u, h1, h2, h3, h4, h5, h6 "pw1" (by decide)⟩

/-- C9: the only failure codes of the service Update operation are NotFound,
Canceled and Internal; in particular Update never fails with AlreadyExists,
even when the requested username or email duplicates another account. -/
theorem service_update_error_codes (ctx : Ctx) (db : DB) (e : Entropy)
    (req : UpdateUserRequest) (err : GrpcError)
    (herr : (UserService.Update ctx db e req).2 = Except.error err) :
    err.code = Code.NotFound ∨ err.code = Code.Canceled ∨ err.code = Code.Internal := by
  unfold UserService.Update at herr
  repeat' split at herr
  all_goals dsimp only at herr
  all_goals repeat' split at herr
  all_goals first
    | (rw [← herr]; decide)
    | (injection herr with h; rw [← h]; decide)
    | exact absurd herr (by simp)
    | simp_all

/-- Two-account database: alice and bob. -/
def db3 : DB :=
  ⟨[⟨1, "alice", "a@x.com", "h1", "s1", 10, 10⟩, ⟨2, "bob", "b@x.com", "h2", "s2", 11, 11⟩], 3, 30⟩

/-- C9 witness: renaming bob to the taken username alice fails with
Internal (the unique constraint surfaces as a storage error), not
AlreadyExists. -/
theorem service_update_error_codes_witness :
    (UserService.Update ctxLive db3 ent0 ⟨2, "alice", "", ""⟩).2
        = Except.error ⟨Code.Internal, "failed to update user"⟩ ∧
    ((⟨Code.Internal, "failed to update user"⟩ : GrpcError).code = Code.NotFound ∨
      (⟨Code.Internal, "failed to update user"⟩ : GrpcError).code = Code.Canceled ∨
      (⟨Code.Internal, "failed to update user"⟩ : GrpcError).code = Code.Internal) :=
  ⟨rfl, service_update_error_codes ctxLive db3 ent0 ⟨2, "alice", "", ""⟩ _ rfl⟩

/-- C10: a negative 64-bit id wraps around modulo 2 to the 64 under the uint
conversion (so -1 becomes 2 to the 64 minus 1, a value at least 2 to the 63),
and since server-assigned ids stay below 2 to the 63, GetByID, Update, Delete
and CheckPassword treat it as an ordinarily absent id and answer NotFound
rather than rejecting the argument. -/
theorem service_negative_id_wraps_to_not_found (ctx : Ctx) (db : DB) (e : Entropy)
    (i : Int) (pw : String)
    (hc : ∀ k, ctx.doneAt k = false)
    (hneg : i < 0) (hrange : -(2 ^ 63 : Int) ≤ i)
    (hids : ∀ r ∈ db.rows, r.id < 2 ^ 63) :
    goUintOfInt64 i = (i + 2 ^ 64).toNat ∧
    2 ^ 63 ≤ goUintOfInt64 i ∧
    UserService.GetByID ctx db ⟨i⟩ = (db, Except.error ⟨Code.NotFound, "user not found"⟩) ∧
    (∀ req : UpdateUserRequest, req.id = i →
      UserService.Update ctx db e req = (db, Except.error ⟨Code.NotFound, "user not found"⟩)) ∧
    UserService.Delete ctx db ⟨i⟩ = (db, Except.error ⟨Code.NotFound, "user not found"⟩) ∧
    UserService.CheckPass ctx db ⟨i, pw⟩ = (db, Except.error ⟨Code.NotFound, "user not found"⟩) := by
  have hp64 : ((2 : Int) ^ 64) = 18446744073709551616 := by norm_num
  have hp63i : ((2 : Int) ^ 63) = 9223372036854775808 := by norm_num
  have hp63n : ((2 : Nat) ^ 63) = 9223372036854775808 := by norm_num
  rw [hp63i] at hrange
  have h1 : goUintOfInt64 i = (i + 2 ^ 64).toNat := by
    unfold goUintOfInt64
    rw [hp64]
    omega
  have h2 : 2 ^ 63 ≤ goUintOfInt64 i := by
    unfold goUintOfInt64
    rw [hp64, hp63n]
    omega
  have habs : db.firstById (goUintOfInt64 i) = none := by
    unfold DB.firstById
    rw [List.find?_eq_none]
    intro r hr
    have hria := hids r hr
    rw [hp63n] at hria
    rw [hp63n] at h2
    simp only [beq_iff_eq]
    omega
  have h := absent_id_not_found_aux ctx db e i pw hc habs
  exact ⟨h1, h2, h.1, h.2.1, h.2.2.1, h.2.2.2⟩

/-- C10 witness: id -1 wraps to 2 to the 64 minus 1 and every id-addressed
operation answers NotFound on the one-account database. -/
theorem service_negative_id_wraps_to_not_found_witness :
    goUintOfInt64 (-1) = ((-1 : Int) + 2 ^ 64).toNat ∧
    2 ^ 63 ≤ goUintOfInt64 (-1) ∧
    UserService.GetByID ctxLive db1 ⟨-1⟩
      = (db1, Except.error ⟨Code.NotFound, "user not found"⟩) ∧
    UserService.Update ctxLive db1 ent0 ⟨-1, "x", "y", "z"⟩
      = (db1, Except.error ⟨Code.NotFound, "user not found"⟩) ∧
    UserService.Delete ctxLive db1 ⟨-1⟩
      = (db1, Except.error ⟨Code.NotFound, "user not found"⟩) ∧
    UserService.CheckPass ctxLive db1 ⟨-1, "pw1"⟩
      = (db1, Except.error ⟨Code.NotFound, "user not found"⟩) := by
  have h := service_negative_id_wraps_to_not_found ctxLive db1 ent0 (-1) "pw1"
    (fun _ => rfl) (by decide) (by decide) (by decide)
  exact ⟨h.1, h.2.1, h.2.2.1, h.2.2.2.1 ⟨-1, "x", "y", "z"⟩ rfl, h.2.2.2.2.1, h.2.2.2.2.2⟩

/-- C6: repository CreateUser is atomic: a cancellation detected after Begin
(the polls before and after the insert) rolls the transaction back, leaving
the table unchanged, and is reported as the distinguished Canceled error; an
insert failure likewise rolls back; and no failing outcome of any kind
leaves a partial row. -/
theorem repo_create_atomic (ctx : Ctx) (k : Nat) (db : DB) (u : User)
    (hck : ctx.doneAt k = false)
    (hval : PostgresRepository.validateUser u = Except.ok ()) :
    (ctx.doneAt (k + 1) = true →
      PostgresRepository.CreateUser ctx k db u = (db, Except.error RepoErr.contextCanceled)) ∧
    (∀ db₂ row, ctx.doneAt (k + 1) = false → ctx.doneAt (k + 2) = true →
      db.insert ⟨0, u.username, u.email, u.pwdhash, u.salt, 0, 0⟩ = Except.ok (db₂, row) →
      PostgresRepository.CreateUser ctx k db u = (db, Except.error RepoErr.contextCanceled)) ∧
    (∀ err, ctx.doneAt (k + 1) = false →
      db.insert ⟨0, u.username, u.email, u.pwdhash, u.salt, 0, 0⟩ = Except.error err →
      PostgresRepository.CreateUser ctx k db u = (db, Except.error err)) ∧
    (∀ err, (PostgresRepository.CreateUser ctx k db u).2 = Except.error err →
      (PostgresRepository.CreateUser ctx k db u).1 = db) := by
  unfold PostgresRepository.CreateUser
  rw [hck, hval]
  simp only [Bool.false_eq_true, if_false]
  refine ⟨?_, ?_, ?_, ?_⟩
  · intro h1
    rw [h1]
    simp
  · intro db₂ row h1 h2 hins
    rw [h1]
    simp only [Bool.false_eq_true, if_false, hins]
    rw [h2]
    simp
  · intro err h1 hins
    rw [h1]
    simp only [Bool.false_eq_true, if_false, hins]
  · intro err herr
    by_cases h1 : ctx.doneAt (k + 1) = true
    · rw [if_pos h1]
    · rw [if_neg h1] at herr ⊢
      cases hins : db.insert ⟨0, u.username, u.email, u.pwdhash, u.salt, 0, 0⟩ with
      | error e₂ => simp only [hins]
      | ok p =>
        obtain ⟨db₂, row⟩ := p
        simp only [hins] at herr ⊢
        by_cases h2 : ctx.doneAt (k + 2) = true
        · rw [if_pos h2]
        · rw [if_neg h2] at herr ⊢
          exact absurd herr (by simp)

/-- Context canceled from the second poll on. -/
def ctxCancelFrom1 : Ctx := ⟨fun k => decide (1 ≤ k)⟩

/-- Context canceled from the third poll on. -/
def ctxCancelFrom2 : Ctx := ⟨fun k => decide (2 ≤ k)⟩

/-- Valid fresh account used by the atomicity witness. -/
def validU : User := ⟨0, "carol", "c@x.com", "h3", "s3", "", ""⟩

/-- Account clashing with the stored alice on username. -/
def dupU : User := ⟨0, "alice", "x@y.com", "h4", "s4", "", ""⟩

/-- C6 witness: cancellation right after Begin and right after the insert
each roll back and report Canceled; a failing insert rolls back with the
driver error; in each case the table is unchanged. -/
theorem repo_create_atomic_witness :
    PostgresRepository.validateUser validU = Except.ok () ∧
    PostgresRepository.CreateUser ctxCancelFrom1 0 db0 validU
      = (db0, Except.error RepoErr.contextCanceled) ∧
    PostgresRepository.CreateUser ctxCancelFrom2 0 db0 validU
      = (db0, Except.error RepoErr.contextCanceled) ∧
    PostgresRepository.CreateUser ctxLive 0 db1 dupU
      = (db1, Except.error (RepoErr.storage "duplicate key value violates unique constraint")) := by
  have h1 := repo_create_atomic ctxCancelFrom1 0 db0 validU rfl rfl
  have h2 := repo_create_atomic ctxCancelFrom2 0 db0 validU rfl rfl
  have h3 := repo_create_atomic ctxLive 0 db1 dupU rfl rfl
  refine ⟨rfl, h1.1 rfl, ?_, ?_⟩
  · exact h2.2.1 ⟨[⟨1, "carol", "c@x.com", "h3", "s3", 10, 10⟩], 2, 10⟩
      ⟨1, "carol", "c@x.com", "h3", "s3", 10, 10⟩ rfl rfl rfl
  · exact h3.2.2.1 (RepoErr.storage "duplicate key value violates unique constraint") rfl rfl

/-- Field constraints of the Account data model read literally from the
spec: lengths counted in characters. -/
def specFieldConstraints (u : User) : Prop :=
  u.username ≠ "" ∧ u.username.length ≤ 50 ∧
  u.email ≠ "" ∧ u.email.length ≤ 254 ∧
  u.pwdhash ≠ "" ∧ u.pwdhash.length ≤ 1000 ∧
  u.salt ≠ "" ∧ u.salt.length ≤ 255

instance (u : User) : Decidable (specFieldConstraints u) := by
  unfold specFieldConstraints
  infer_instance

/-- Field constraints as validateUser actually checks them: lengths counted
in UTF-8 bytes, the unit of the Go builtin len. -/
def byteFieldConstraints (u : User) : Prop :=
  u.username ≠ "" ∧ goLen u.username ≤ 50 ∧
  u.email ≠ "" ∧ goLen u.email ≤ 254 ∧
  u.pwdhash ≠ "" ∧ goLen u.pwdhash ≤ 1000 ∧
  u.salt ≠ "" ∧ goLen u.salt ≤ 255

instance (u : User) : Decidable (byteFieldConstraints u) := by
  unfold byteFieldConstraints
  infer_instance

/-- Account whose username has exactly 50 characters but 100 UTF-8 bytes. -/
def uCyr : User :=
  ⟨0, "яяяяяяяяяяяяяяяяяяяяяяяяяяяяяяяяяяяяяяяяяяяяяяяяяя", "a@b.com", "h", "s", "", ""⟩

/-- C7 counterexample: uCyr satisfies the character-counted bounds of the
data model, yet validateUser rejects it (the code measures bytes), so
CreateUser refuses an account the claim declares valid. -/
theorem repo_validate_chars_counterexample :
    specFieldConstraints uCyr ∧
    PostgresRepository.validateUser uCyr
      = Except.error (RepoErr.validation
          "invalid username: must be 1-50 characters and valid UTF-8") ∧
    PostgresRepository.CreateUser ctxLive 0 db0 uCyr
      = (db0, Except.error (RepoErr.validation
          "invalid username: must be 1-50 characters and valid UTF-8")) := by
  refine ⟨by decide, by decide, by decide⟩

/-- C7 amended: repository CreateUser validates the account before any
write, but against byte-counted bounds: validateUser accepts exactly the
accounts within the byte bounds of the stored fields, every rejection is a
descriptive validation (InvalidArgument-class) error, and a rejected
account aborts CreateUser with that error and an unchanged table. -/
theorem repo_create_validates_before_write (ctx : Ctx) (k : Nat) (db : DB) (u : User)
    (hck : ctx.doneAt k = false) :
    (PostgresRepository.validateUser u = Except.ok () ↔ byteFieldConstraints u) ∧
    (∀ e, PostgresRepository.validateUser u = Except.error e →
      ∃ msg, e = RepoErr.validation msg) ∧
    (∀ msg, PostgresRepository.validateUser u = Except.error (RepoErr.validation msg) →
      PostgresRepository.CreateUser ctx k db u
        = (db, Except.error (RepoErr.validation msg))) := by
  refine ⟨?_, ?_, ?_⟩
  · unfold PostgresRepository.validateUser byteFieldConstraints utf8ValidString
    constructor
    · intro h
      split_ifs at h with hc1 hc2 hc3 hc4
      · simp only [Bool.or_eq_true, beq_iff_eq, decide_eq_true_eq, Bool.not_true,
          Bool.false_eq_true, or_false, not_or, ne_eq] at hc1 hc2 hc3 hc4
        obtain ⟨k1, k2⟩ := hc1
        obtain ⟨k3, k4⟩ := hc2
        obtain ⟨k5, k6⟩ := hc3
        obtain ⟨k7, k8⟩ := hc4
        exact ⟨k1, by omega, k3, by omega, k5, by omega, k7, by omega⟩
    · intro hx
      obtain ⟨h1, h2, h3, h4, h5, h6, h7, h8⟩ := hx
      split_ifs with hc1 hc2 hc3 hc4
      · simp only [Bool.or_eq_true, beq_iff_eq, decide_eq_true_eq, Bool.not_true,
          Bool.false_eq_true, or_false] at hc1
        rcases hc1 with hc | hc
        · exact absurd hc h1
        · omega
      · simp only [Bool.or_eq_true, beq_iff_eq, decide_eq_true_eq, Bool.not_true,
          Bool.false_eq_true, or_false] at hc2
        rcases hc2 with hc | hc
        · exact absurd hc h3
        · omega
      · simp only [Bool.or_eq_true, beq_iff_eq, decide_eq_true_eq] at hc3
        rcases hc3 with hc | hc
        · exact absurd hc h5
        · omega
      · simp only [Bool.or_eq_true, beq_iff_eq, decide_eq_true_eq] at hc4
        rcases hc4 with hc | hc
        · exact absurd hc h7
        · omega
      · rfl
  · intro e h
    unfold PostgresRepository.validateUser at h
    repeat' split at h
    all_goals first
      | (injection h with h; exact ⟨_, h.symm⟩)
      | exact absurd h (by simp)
  · intro msg hv
    unfold PostgresRepository.CreateUser
    rw [hck]
    simp only [Bool.false_eq_true, if_false, hv]

/-- C7 amended witness: a one-byte-per-character account passes validation,
and an overlong byte count is rejected before any write. -/
theorem repo_create_validates_before_write_witness :
    byteFieldConstraints validU ∧
    PostgresRepository.validateUser validU = Except.ok () ∧
    PostgresRepository.CreateUser ctxLive 0 db0 uCyr
      = (db0, Except.error (RepoErr.validation
          "invalid username: must be 1-50 characters and valid UTF-8")) := by
  have h1 := repo_create_validates_before_write ctxLive 0 db0 validU rfl
  have h2 := repo_create_validates_before_write ctxLive 0 db0 uCyr rfl
  exact ⟨by decide, h1.1.mpr (by decide), h2.2.2 _ (by decide)⟩

/-- Well-formedness of the table: rows pairwise differ in primary key,
username and email (the primary-key discipline plus the two unique
constraints), and every id precedes the auto-increment counter. -/
def DB.WF (db : DB) : Prop :=
  db.rows.Pairwise (fun a b => a.id ≠ b.id ∧ a.username ≠ b.username ∧ a.email ≠ b.email)
  ∧ ∀ r ∈ db.rows, r.id < db.nextId

instance (db : DB) : Decidable db.WF := by
  unfold DB.WF
  infer_instance

/-- A successful insert preserves well-formedness: the fresh primary key is
new, and the unique-constraint check keeps the credentials distinct. -/
theorem insert_WF (db : DB) (gu : GormUser) (db₂ : DB) (row : GormUser)
    (h : db.insert gu = Except.ok (db₂, row)) (hwf : db.WF) : db₂.WF := by
  unfold DB.insert at h
  split at h
  · exact absurd h (by simp)
  · next hguard =>
    rw [Except.ok.injEq, Prod.mk.injEq] at h
    obtain ⟨hdb, hrow⟩ := h
    subst hdb
    simp only [List.any_eq_true, not_exists, not_and, Bool.or_eq_true, beq_iff_eq,
      not_or] at hguard
    constructor
    · show (db.rows ++ [{ gu with id := db.nextId, createdAt := db.now, updatedAt := db.now }]).Pairwise _
      rw [List.pairwise_append]
      refine ⟨hwf.1, by simp, ?_⟩
      intro a ha b hb
      rw [List.mem_singleton] at hb
      subst hb
      have hid := hwf.2 a ha
      have hcred := hguard a ha
      exact ⟨show a.id ≠ db.nextId from by omega, hcred.1, hcred.2⟩
    · intro r hr
      have hr2 : r ∈ db.rows ++
          [{ gu with id := db.nextId, createdAt := db.now, updatedAt := db.now }] := hr
      rw [List.mem_append] at hr2
      show r.id < db.nextId + 1
      rcases hr2 with hr2 | hr2
      · have := hwf.2 r hr2
        omega
      · rw [List.mem_singleton] at hr2
        subst hr2
        show db.nextId < db.nextId + 1
        omega

/-- The table component of an update-statement outcome is well-formed:
a failed statement leaves the table as it was, and a successful one only
replaces the matched row by a merge that the constraint check admits. -/
theorem updateRow_fst_WF (db : DB) (old upd : GormUser) (hwf : db.WF) :
    (db.updateRow old upd).1.WF := by
  simp only [DB.updateRow]
  split
  · exact hwf
  · next hguard =>
    have hcred : ∀ r ∈ db.rows, r.id ≠ (mergeNonZero old upd db.now).id →
        r.username ≠ (mergeNonZero old upd db.now).username ∧
        r.email ≠ (mergeNonZero old upd db.now).email := by
      intro r hr hrid
      have hc : ¬((r.id != (mergeNonZero old upd db.now).id &&
          (r.username == (mergeNonZero old upd db.now).username ||
            r.email == (mergeNonZero old upd db.now).email)) = true) := by
        intro hx
        exact hguard (by rw [List.any_eq_true]; exact ⟨r, hr, hx⟩)
      simp only [Bool.and_eq_true, bne_iff_ne, Bool.or_eq_true, beq_iff_eq, not_and, not_or,
        ne_eq] at hc
      exact hc hrid
    have hfid : ∀ r : GormUser,
        (if r.id == (mergeNonZero old upd db.now).id then mergeNonZero old upd db.now else r).id
          = r.id := by
      intro r
      by_cases hc : r.id = (mergeNonZero old upd db.now).id
      · rw [if_pos (by simpa using hc)]
        exact hc.symm
      · rw [if_neg (by simpa using hc)]
    constructor
    · show (db.rows.map _).Pairwise _
      rw [List.pairwise_map]
      refine List.Pairwise.imp_of_mem ?_ hwf.1
      intro a b ha hb hab
      by_cases hca : a.id = (mergeNonZero old upd db.now).id <;>
        by_cases hcb : b.id = (mergeNonZero old upd db.now).id
      · exact absurd (hca.trans hcb.symm) hab.1
      · rw [if_pos (by simpa using hca), if_neg (by simpa using hcb)]
        have hb2 := hcred b hb hcb
        exact ⟨fun hx => hab.1 (hca.trans hx), hb2.1.symm, hb2.2.symm⟩
      · rw [if_neg (by simpa using hca), if_pos (by simpa using hcb)]
        have ha2 := hcred a ha hca
        exact ⟨fun hx => hca hx, ha2.1, ha2.2⟩
      · rw [if_neg (by simpa using hca), if_neg (by simpa using hcb)]
        exact hab
    · intro r hr
      show r.id < db.nextId
      have hr2 : r ∈ db.rows.map (fun r =>
          if r.id == (mergeNonZero old upd db.now).id then mergeNonZero old upd db.now else r) :=
        hr
      rw [List.mem_map] at hr2
      obtain ⟨a, ha, rfl⟩ := hr2
      rw [hfid a]
      exact hwf.2 a ha

/-- Deleting a row preserves well-formedness. -/
theorem deleteById_WF (db : DB) (id : Nat) (hwf : db.WF) : (db.deleteById id).WF := by
  unfold DB.deleteById
  constructor
  · exact hwf.1.sublist (List.filter_sublist _)
  · intro r hr
    exact hwf.2 r (List.mem_of_mem_filter hr)

/-- A pair equation form of updateRow_fst_WF, convenient after a split. -/
theorem WF_of_updateRow_eq (db : DB) (old upd : GormUser) (db₂ : DB)
    (res : Except RepoErr GormUser) (heq : db.updateRow old upd = (db₂, res))
    (hwf : db.WF) : db₂.WF := by
  have h := updateRow_fst_WF db old upd hwf
  rw [heq] at h
  exact h

/-- The table left by repository CreateUser is well-formed on every path. -/
theorem repo_CreateUser_WF (ctx : Ctx) (k : Nat) (db : DB) (u : User) (hwf : db.WF) :
    (PostgresRepository.CreateUser ctx k db u).1.WF := by
  unfold PostgresRepository.CreateUser
  split
  · exact hwf
  · split
    · exact hwf
    · split
      · exact hwf
      · dsimp only
        split
        · exact hwf
        · next db₂ row heq =>
          split
          · exact hwf
          · exact insert_WF db _ db₂ row heq hwf

/-- The table left by repository UpdateUser is well-formed on every path. -/
theorem repo_UpdateUser_WF (ctx : Ctx) (k : Nat) (db : DB) (u : User) (hwf : db.WF) :
    (PostgresRepository.UpdateUser ctx k db u).1.WF := by
  unfold PostgresRepository.UpdateUser
  split
  · exact hwf
  · dsimp only
    split
    · exact hwf
    · next existing hfind =>
      split
      · next db₂ e₂ heq =>
        exact WF_of_updateRow_eq db existing _ db₂ _ heq hwf
      · next db₂ merged heq =>
        exact WF_of_updateRow_eq db existing _ db₂ _ heq hwf

/-- The table left by repository DeleteUser is well-formed on every path. -/
theorem repo_DeleteUser_WF (ctx : Ctx) (k : Nat) (db : DB) (id : Nat) (hwf : db.WF) :
    (PostgresRepository.DeleteUser ctx k db id).1.WF := by
  unfold PostgresRepository.DeleteUser
  split
  · exact hwf
  · split
    · exact hwf
    · next existing hfind =>
      exact deleteById_WF db existing.id hwf

/-- A pair equation form of repo_CreateUser_WF, convenient after a split. -/
theorem WF_of_repoCreate_eq (ctx : Ctx) (k : Nat) (db db₂ : DB) (u : User)
    (res : Except RepoErr User) (heq : PostgresRepository.CreateUser ctx k db u = (db₂, res))
    (hwf : db.WF) : db₂.WF := by
  have h := repo_CreateUser_WF ctx k db u hwf
  rw [heq] at h
  exact h

/-- A pair equation form of repo_UpdateUser_WF, convenient after a split. -/
theorem WF_of_repoUpdate_eq (ctx : Ctx) (k : Nat) (db db₂ : DB) (u : User)
    (res : Except RepoErr User) (heq : PostgresRepository.UpdateUser ctx k db u = (db₂, res))
    (hwf : db.WF) : db₂.WF := by
  have h := repo_UpdateUser_WF ctx k db u hwf
  rw [heq] at h
  exact h

/-- A pair equation form of repo_DeleteUser_WF, convenient after a split. -/
theorem WF_of_repoDelete_eq (ctx : Ctx) (k : Nat) (db db₂ : DB) (id : Nat)
    (res : Except RepoErr Unit) (heq : PostgresRepository.DeleteUser ctx k db id = (db₂, res))
    (hwf : db.WF) : db₂.WF := by
  have h := repo_DeleteUser_WF ctx k db id hwf
  rw [heq] at h
  exact h

/-- C8: the three mutating service operations preserve the invariant that no
two stored rows share an id, a username or an email (well-formedness of the
table), whatever their outcome. -/
theorem service_preserves_unique_credentials (ctx : Ctx) (db : DB) (e : Entropy)
    (req₁ : CreateUserRequest) (req₂ : UpdateUserRequest) (req₃ : DeleteUserRequest)
    (hwf : db.WF) :
    (UserService.Create ctx db e req₁).1.WF ∧
    (UserService.Update ctx db e req₂).1.WF ∧
    (UserService.Delete ctx db req₃).1.WF := by
  refine ⟨?_, ?_, ?_⟩
  · unfold UserService.Create
    dsimp only
    repeat' split
    all_goals first
      | exact hwf
      | (rename_i heq
         exact WF_of_repoCreate_eq ctx 3 db _ _ _ heq hwf)
      | (rename_i heq hcond
         exact WF_of_repoCreate_eq ctx 3 db _ _ _ heq hwf)
  · unfold UserService.Update
    dsimp only
    repeat' split
    all_goals first
      | exact hwf
      | (rename_i heq
         exact WF_of_repoUpdate_eq ctx 2 db _ _ _ heq hwf)
      | (rename_i heq hcond
         exact WF_of_repoUpdate_eq ctx 2 db _ _ _ heq hwf)
  · unfold UserService.Delete
    repeat' split
    all_goals first
      | exact hwf
      | (rename_i heq
         exact WF_of_repoDelete_eq ctx 1 db _ _ _ heq hwf)
      | (rename_i heq hcond
         exact WF_of_repoDelete_eq ctx 1 db _ _ _ heq hwf)

/-- C8 witness: the invariant holds on the two-account table and is kept by
a fresh create, a cross-account email update and a delete. -/
theorem service_preserves_unique_credentials_witness :
    db3.WF ∧
    (UserService.Create ctxLive db3 ent0 ⟨"carol", "c@x.com", "pw9"⟩).1.WF ∧
    (UserService.Update ctxLive db3 ent0 ⟨2, "", "a@x.com", ""⟩).1.WF ∧
    (UserService.Delete ctxLive db3 ⟨1⟩).1.WF := by
  have h := service_preserves_unique_credentials ctxLive db3 ent0
    ⟨"carol", "c@x.com", "pw9"⟩ ⟨2, "", "a@x.com", ""⟩ ⟨1⟩ (by decide)
  exact ⟨by decide, h.1, h.2.1, h.2.2⟩

end WatchlistUser
